import Mathlib

/-!
Shallow embedding of the jrtti runtime-reflection library, for checking its
natural-language specification.

Embedded source files:
* `include/jrtti/reflector.hpp` (type registry: `Reflector::declare`,
  `internal_declare`, `metatype`, `clear`, `register_defaults`,
  `addPendingProperty`, `updatePendingProperties`, `demangle`)
* `include/jrtti/property.hpp` (`Property` mode bits, `TypedProperty::set`,
  `TypedProperty::getter`)
* `include/jrtti/JSONSerializer.hpp` (`JSONWriter::objectBegin`/`objectEnd`,
  `JSONReader::readProperty`, the tokenizer, `removeEscapeSeq`, the
  object/collection scan loops)
* `include/jrtti/collection.hpp` (`Metacollection::_fromStr`)

Numbers are modelled as `Nat`/`Int`; C++ `char` as Lean `Char` restricted to
code points below 256; `std::map`/`std::multimap` as association lists;
functions that throw as `Except String`; heap objects (metatype and property
instances) as `Nat` identities handed out by a monotone counter.  Scanning
loops that, in the source, read from the stream with no bound are modelled as
`Option`-returning functions, `none` meaning the loop reached end-of-stream
with its exit condition still false (the source then spins forever on EOF).
-/

namespace Jrtti

/-! ### Association-list model of `std::map` / property fields -/

/-- Find a binding in an association list (model of `std::map::find`). -/
def mapFind : List (String × Nat) → String → Option Nat
  | [], _ => none
  | (k, v) :: t, n => if k = n then some v else mapFind t n

/-- Insert-or-overwrite a binding (model of `std::map::operator[]` followed by
assignment). -/
def mapInsert : List (String × Nat) → String → Nat → List (String × Nat)
  | [], k, v => [(k, v)]
  | (k', v') :: t, k, v => if k' = k then (k, v) :: t else (k', v') :: mapInsert t k v

/-- Find a binding in a `Nat`-keyed association list (model of a heap object's
mutable field, keyed by object identity). -/
def assocFind : List (Nat × Nat) → Nat → Option Nat
  | [], _ => none
  | (k, v) :: t, n => if k = n then some v else assocFind t n

/-- Overwrite-or-add a binding in a `Nat`-keyed association list (model of
assigning a heap object's mutable field). -/
def assocSet : List (Nat × Nat) → Nat → Nat → List (Nat × Nat)
  | [], k, v => [(k, v)]
  | (k', v') :: t, k, v => if k' = k then (k, v) :: t else (k', v') :: assocSet t k v

@[simp] theorem mapFind_nil (n : String) : mapFind [] n = none := rfl

theorem mapFind_mapInsert_self (m : List (String × Nat)) (k : String) (v : Nat) :
    mapFind (mapInsert m k v) k = some v := by
  induction m with
  | nil => simp [mapInsert, mapFind]
  | cons h t ih =>
    obtain ⟨k', v'⟩ := h
    by_cases hk : k' = k
    · simp [mapInsert, hk, mapFind]
    · simp [mapInsert, hk, mapFind, ih]

theorem mapFind_mapInsert_ne (m : List (String × Nat)) (k k' : String) (v : Nat)
    (h : k' ≠ k) : mapFind (mapInsert m k v) k' = mapFind m k' := by
  have hk : ¬ k = k' := fun hh => h hh.symm
  induction m with
  | nil => simp [mapInsert, mapFind, hk]
  | cons p t ih =>
    obtain ⟨k₀, v₀⟩ := p
    by_cases h0 : k₀ = k
    · subst h0
      simp [mapInsert, mapFind, hk]
    · simp [mapInsert, h0, mapFind, ih]

theorem assocFind_assocSet_self (m : List (Nat × Nat)) (k v : Nat) :
    assocFind (assocSet m k v) k = some v := by
  induction m with
  | nil => simp [assocSet, assocFind]
  | cons h t ih =>
    obtain ⟨k', v'⟩ := h
    by_cases hk : k' = k
    · simp [assocSet, hk, assocFind]
    · simp [assocSet, hk, assocFind, ih]

theorem assocFind_assocSet_ne (m : List (Nat × Nat)) (k k' v : Nat)
    (h : k' ≠ k) : assocFind (assocSet m k v) k' = assocFind m k' := by
  have hk : ¬ k = k' := fun hh => h hh.symm
  induction m with
  | nil => simp [assocSet, assocFind, hk]
  | cons p t ih =>
    obtain ⟨k₀, v₀⟩ := p
    by_cases h0 : k₀ = k
    · subst h0
      simp [assocSet, assocFind, hk]
    · simp [assocSet, h0, assocFind, ih]

/-! ### Type registry (`Reflector`, reflector.hpp)

`typeid(T).name()` is modelled as a canonical name `String`; the paired
pointer type `typeid(T*).name()` as the name with `"*"` appended (the two are
always distinct, which is all the source relies on).  Heap-allocated
`Metatype` objects are modelled by their identity, a `Nat` drawn from the
`nextId` counter. -/

/-- Model of `typeid(T*).name()` as a function of `typeid(T).name()`. -/
def ptrName (t : String) : String := t ++ "*"

theorem ptrName_ne (t : String) : ptrName t ≠ t := by
  intro h
  have h1 : (ptrName t).length = t.length := congrArg String.length h
  rw [ptrName, String.length_append] at h1
  have h2 : "*".length = 1 := rfl
  omega

/-- State of the `Reflector` singleton: `_meta_types`, the allocation counter
for `new`-ed descriptor objects, `m_pendingProperties` (a multimap, modelled as
a list of key/property-identity pairs), the resolved `Property::metatype`
fields (written by `setMetatype`), the `Metatype::pointerMetatype` links, and
`m_prefixDecorators`. -/
structure RState where
  meta_types : List (String × Nat)
  nextId : Nat
  pendingProps : List (String × Nat)
  propMeta : List (Nat × Nat)
  pointerOf : List (Nat × Nat)
  prefixDecorators : List String
  deriving DecidableEq, Repr

/-- Model of `std::string::find` on character lists: position of the first
occurrence of `pat` in `hay`. -/
def findSub : List Char → List Char → Option Nat
  | h, p =>
    if p.isPrefixOf h then some 0
    else
      match h with
      | [] => none
      | _ :: t => (findSub t p).map (· + 1)

/-- Source `Reflector::demangle`, generic branch (neither `__GNUG__` nor
`__BORLANDC__`, which dispatch to compiler intrinsics): find the first
registered decorator occurring in the name and strip everything up to and
including it plus one separator character. -/
def demangle (decorators : List String) (name : String) : String :=
  go decorators name.toList
where
  go : List String → List Char → String
  | [], n => n.asString
  | d :: ds, n =>
    match findSub n d.toList with
    | some pos => (n.drop (pos + d.toList.length + 1)).asString
    | none => go ds n

/-- Source `Reflector::metatype( const std::string& pname )`: look the name up in
`_meta_types`; throw `Error("Metatype '...' not declared")` when absent. -/
def metatypeLookup (s : RState) (pname : String) : Except String Nat :=
  match mapFind s.meta_types pname with
  | none => Except.error ("Metatype '" ++ demangle s.prefixDecorators pname ++ "' not declared")
  | some m => Except.ok m

/-- Source `Reflector::addPendingProperty`: `m_pendingProperties.insert(...)` on the
multimap (insertion keeps earlier entries, appends the new pair). -/
def addPendingProperty (s : RState) (tname : String) (propId : Nat) : RState :=
  { s with pendingProps := s.pendingProps ++ [(tname, propId)] }

/-- Source `Reflector::updatePendingProperties`: take `equal_range` of the new
metatype's `typeid` name in the pending multimap, call `setMetatype` on each
property in the range, then erase the range.  (`Property::setMetatype` lives in
metatype.hpp, which is not under src/; modelled from the spec as assigning the
new descriptor to the property's metatype field.) -/
def updatePendingProperties (s : RState) (mcName : String) (mcId : Nat) : RState :=
  { s with
    propMeta :=
      (s.pendingProps.filter (fun p => p.1 = mcName)).foldl
        (fun pm p => assocSet pm p.2 mcId) s.propMeta,
    pendingProps := s.pendingProps.filter (fun p => ¬ p.1 = mcName) }

/-- Shared tail of `Reflector::internal_declare` after the pointer metatype
`ptr_mc` is in hand: store both map entries, link `mc->pointerMetatype(ptr_mc)`
and flush pending properties for both names. -/
def declareCore (s : RState) (tname : String) (mc ptr_mc : Nat) : RState :=
  let s := { s with
    meta_types := mapInsert (mapInsert s.meta_types tname mc) (ptrName tname) ptr_mc,
    pointerOf := assocSet s.pointerOf mc ptr_mc }
  updatePendingProperties (updatePendingProperties s tname mc) (ptrName tname) ptr_mc

/-- Source `Reflector::internal_declare<T>( Metatype * mc )`: if `T` is not yet in
`_meta_types`, allocate a fresh `MetaPointerType` for `T*`; otherwise reuse the
registered `metatype<T*>()` (which throws if absent).  Then register both
entries and resolve pending properties. -/
def internal_declare (s : RState) (tname : String) (mc : Nat) : Except String RState :=
  if mapFind s.meta_types tname = none then
    Except.ok (declareCore { s with nextId := s.nextId + 1 } tname mc s.nextId)
  else
    match metatypeLookup s (ptrName tname) with
    | Except.error e => Except.error e
    | Except.ok p => Except.ok (declareCore s tname p mc)

/-- Source `Reflector::declare<C>()`: if `_meta_types` already holds an entry for
`typeid(C).name()`, return the registered descriptor unchanged; otherwise
allocate a fresh `CustomMetaclass` and run `internal_declare`.  Returns the
new state and the identity of the returned descriptor. -/
def declare (s : RState) (tname : String) : Except String (RState × Nat) :=
  if (mapFind s.meta_types tname).isSome then
    (metatypeLookup s tname).map (fun m => (s, m))
  else
    let mc := s.nextId
    let s1 := { s with nextId := s.nextId + 1 }
    (internal_declare s1 tname mc).map (fun s2 => (s2, mc))

/-- One `internal_declare< T >( new MetaT() )` line of
`Reflector::register_defaults`: allocate the primitive descriptor, then
register it. -/
def declarePrimitive (s : RState) (tname : String) : Except String RState :=
  let mc := s.nextId
  internal_declare { s with nextId := s.nextId + 1 } tname mc

/-- The ten primitive type names registered by `Reflector::register_defaults`. -/
def primitiveNames : List String :=
  ["bool", "char", "short", "int", "long", "float", "double",
   "long double", "wchar_t", "std::string"]

/-- Source `Reflector::register_defaults`: register the ten primitive metatypes in
source order. -/
def register_defaults (s : RState) : Except String RState := do
  let s ← declarePrimitive s "bool"
  let s ← declarePrimitive s "char"
  let s ← declarePrimitive s "short"
  let s ← declarePrimitive s "int"
  let s ← declarePrimitive s "long"
  let s ← declarePrimitive s "float"
  let s ← declarePrimitive s "double"
  let s ← declarePrimitive s "long double"
  let s ← declarePrimitive s "wchar_t"
  declarePrimitive s "std::string"

/-- Source `Reflector::clear`: erase all metatypes, reset the decorator list to
`struct`, `class`, and re-register the defaults.  (`eraseMetatypes` deletes the
descriptor objects and clears `_meta_types`; the allocation counter models
`new` and keeps running.) -/
def clear (s : RState) : Except String RState :=
  register_defaults
    { s with meta_types := [], prefixDecorators := ["struct", "class"] }

/-- The freshly constructed `Reflector` (the private constructor just calls
`clear()` on default-initialized members). -/
def reflectorCtor : Except String RState :=
  clear ⟨[], 0, [], [], [], []⟩

/-! ### Property model (property.hpp)

`Property::Mode` is the bitmask `{Readable = 1, Writable = 2}`.  A
`TypedProperty`'s relevant state is its mode word and the declared value-type
name (used by `boost::any_cast` in `set`).  The erased value container
`boost::any` is modelled as a tagged integer; the target object's field that
`internal_set` writes is modelled as the instance itself (an `Int`). -/

/-- Mutable state of a `TypedProperty`: the `Property` mode word and the
declared value-type name. -/
structure PropertyState where
  mode : Nat
  type_name : String
  deriving DecidableEq, Repr

/-- The `Property()` constructor: `_mode = (Mode)0`. -/
def propertyCtor (tn : String) : PropertyState := ⟨0, tn⟩

/-- Source `Property::setMode` : `_mode = (Mode)(_mode | mode)`. -/
def setMode (p : PropertyState) (m : Nat) : PropertyState :=
  { p with mode := p.mode ||| m }

/-- Source `Property::isReadable` : `(_mode & Readable)` converted to `bool`. -/
def isReadable (p : PropertyState) : Bool := p.mode &&& 1 ≠ 0

/-- Source `Property::isWritable` : `(_mode & Writable) != 0`. -/
def isWritable (p : PropertyState) : Bool := p.mode &&& 2 ≠ 0

/-- Source `TypedProperty::getter( functor )`: `if (!functor.empty()) setMode(Readable)`
then store the functor.  `nonempty` records whether the bound functor is
non-empty. -/
def bindGetter (p : PropertyState) (nonempty : Bool) : PropertyState :=
  if nonempty then setMode p 1 else p

/-- Source `TypedProperty::setter( functor )` (function-pair overload):
`if (!functor.empty()) setMode(Writable)`. -/
def bindSetter (p : PropertyState) (nonempty : Bool) : PropertyState :=
  if nonempty then setMode p 2 else p

/-- A `boost::any`: a value carrying its dynamic type's name. -/
structure AnyValue where
  tag : String
  val : Int
  deriving DecidableEq, Repr

/-- Source `TypedProperty::set( instance, value )`: when the property is writable,
`boost::any_cast` the erased value to the declared type (throwing
`boost::bad_any_cast` on disagreement, surfaced as `TypeMismatchError`) and
write it through `internal_set`; when the property is not writable the body is
skipped entirely — no write, no error. -/
def propertySet (p : PropertyState) (instance_ : Int) (value : AnyValue) :
    Except String Int :=
  if isWritable p then
    if value.tag = p.type_name then Except.ok value.val
    else Except.error "TypeMismatchError"
  else Except.ok instance_

/-! ### JSON writer (`JSONWriter`, JSONSerializer.hpp)

The writer's state is the emitted text plus the `need_nl`, `col_need_nl` and
`indentLevel` members.  (`need_nl` and `col_need_nl` are never initialized by
the constructor, so theorems about fresh writers quantify over their initial
values.) -/

/-- State of a `JSONWriter` over a growing output stream. -/
structure WriterState where
  out : String
  need_nl : Bool
  col_need_nl : Bool
  indentLevel : Int
  deriving DecidableEq, Repr

/-- Source `JSONWriter::indent`: one tab per indentation level. -/
def writerIndent (w : WriterState) : WriterState :=
  { w with out := w.out ++ (List.replicate w.indentLevel.toNat '\t').asString }

/-- Source `JSONWriter::objectBegin`: clear `need_nl`, emit the raw type name, a
space, the opening brace and a newline, and push one indentation level. -/
def objectBeginW (w : WriterState) (typeName : String) : WriterState :=
  { w with
    need_nl := false,
    out := w.out ++ typeName ++ " \x7b\n",
    indentLevel := w.indentLevel + 1 }

/-- Source `JSONWriter::objectEnd`: pop one indentation level, emit a newline, the
indentation, and the closing brace, then set `need_nl`. -/
def objectEndW (w : WriterState) : WriterState :=
  let w1 := { w with indentLevel := w.indentLevel - 1 }
  let w2 := { w1 with out := w1.out ++ "\n" }
  let w3 := writerIndent w2
  { w3 with out := w3.out ++ "\x7d", need_nl := true }

/-! ### String escaping (`JSONReader::removeEscapeSeq`; the writer-side
`MetaString::addEscapeSeq` is declared in basetypes.hpp, which is not under
src/, and is modelled from the spec). -/

/-- Hexadecimal digit character (lowercase), as emitted in a `\uXXXX` escape. -/
def hexDigitChar (n : Nat) : Char :=
  if n < 10 then Char.ofNat (48 + n) else Char.ofNat (87 + n)

/-- Four-digit hexadecimal rendering of a code point, most significant digit
first. -/
def toHex4 (n : Nat) : List Char :=
  [hexDigitChar (n / 4096 % 16), hexDigitChar (n / 256 % 16),
   hexDigitChar (n / 16 % 16), hexDigitChar (n % 16)]

/-- Value of one hexadecimal digit as accepted by `std::hex` stream extraction
(upper or lower case; other characters contribute nothing, a case unreachable
on escaper-produced text). -/
def hexDigitVal (c : Char) : Nat :=
  if 48 ≤ c.toNat ∧ c.toNat ≤ 57 then c.toNat - 48
  else if 97 ≤ c.toNat ∧ c.toNat ≤ 102 then c.toNat - 87
  else if 65 ≤ c.toNat ∧ c.toNat ≤ 70 then c.toNat - 55
  else 0

/-- Value of the four-digit hexadecimal run consumed after `\u`. -/
def hex4 (a b c d : Char) : Nat :=
  ((hexDigitVal a * 16 + hexDigitVal b) * 16 + hexDigitVal c) * 16 + hexDigitVal d

/-- Modelled from the spec: `MetaString::addEscapeSeq` lives in basetypes.hpp,
which is not under src/.  Per §4.5 of the spec, strings are escaped with
`\b \f \n \r \t` for the named control characters and `\uXXXX` for other
control and non-ASCII code points; the quote and the backslash are escaped so
that the quoted text round-trips (§8 escaping round-trip).  One source byte is
escaped as follows. -/
def escapeChar (c : Char) : List Char :=
  if c = '"' then ['\\', '"']
  else if c = '\\' then ['\\', '\\']
  else if c = Char.ofNat 8 then ['\\', 'b']
  else if c = Char.ofNat 12 then ['\\', 'f']
  else if c = Char.ofNat 10 then ['\\', 'n']
  else if c = Char.ofNat 13 then ['\\', 'r']
  else if c = Char.ofNat 9 then ['\\', 't']
  else if c.toNat < 32 ∨ 128 ≤ c.toNat then '\\' :: 'u' :: toHex4 c.toNat
  else [c]

/-- Modelled from the spec: the escaper applied to a whole string, one byte at
a time. -/
def addEscapeSeq : List Char → List Char
  | [] => []
  | c :: t => escapeChar c ++ addEscapeSeq t

mutual

/-- Source `JSONReader::removeEscapeSeq`: walk the string; on a backslash, switch on
the following character (the `switch` is `removeEscapeSwitch`); other
characters are copied. -/
def removeEscapeSeq : List Char → List Char
  | [] => []
  | c :: rest =>
    if c = '\\' then removeEscapeSwitch rest else c :: removeEscapeSeq rest

/-- The `switch( *(++iter) )` of `removeEscapeSeq`: `b f n r t` produce the
control character, `u` consumes a four-digit hexadecimal escape
(`removeEscapeHex`), anything else is emitted verbatim.  A lone trailing
backslash dereferences past the end of the string in the source (undefined
behavior); the model stops there. -/
def removeEscapeSwitch : List Char → List Char
  | [] => []
  | e :: t =>
    if e = 'b' then Char.ofNat 8 :: removeEscapeSeq t
    else if e = 'f' then Char.ofNat 12 :: removeEscapeSeq t
    else if e = 'n' then Char.ofNat 10 :: removeEscapeSeq t
    else if e = 'r' then Char.ofNat 13 :: removeEscapeSeq t
    else if e = 't' then Char.ofNat 9 :: removeEscapeSeq t
    else if e = 'u' then removeEscapeHex t
    else e :: removeEscapeSeq t

/-- The `case 'u'` of `removeEscapeSeq`: gather the next four characters,
parse them as hexadecimal via `std::hex` stream extraction, and emit the value
narrowed to `char` (i.e. modulo 256).  Fewer than four remaining characters
dereferences past the end of the string in the source (undefined behavior);
the model stops there. -/
def removeEscapeHex : List Char → List Char
  | h1 :: h2 :: h3 :: h4 :: t2 =>
    Char.ofNat (hex4 h1 h2 h3 h4 % 256) :: removeEscapeSeq t2
  | _ => []

end

/-! ### JSON reader (`JSONReader`, JSONSerializer.hpp)

The input stream together with the one-character lookahead `currentChar` is
modelled as a `List Char` whose head is `currentChar`; `m_stream.get()` drops
the head; the empty list is end-of-stream (`get()` then keeps returning `EOF`,
which none of the tokenizer's predicates accept as a separator or delimiter).
A scanning loop whose exit condition can no longer become true once the list
is empty is modelled as returning `none` there: in the source that loop reads
`EOF` forever and never terminates. -/

/-- Source `JSONReader::isSeparator`: `isspace(c) || c == ','` (the parameter is
ignored in the source in favour of the member `currentChar`, but every call
site passes `currentChar`, so the meaning is the same). -/
def isSeparatorC (c : Char) : Bool :=
  c = ' ' ∨ c = Char.ofNat 9 ∨ c = Char.ofNat 10 ∨ c = Char.ofNat 11 ∨
  c = Char.ofNat 12 ∨ c = Char.ofNat 13 ∨ c = ','

/-- Source `JSONReader::skipSpaces`: advance while `currentChar` is a separator.
Total: at end-of-stream `get()` yields `EOF`, which is not a separator, so the
loop exits (with `currentChar = EOF`, i.e. the empty list). -/
def skipSpacesT : List Char → List Char
  | [] => []
  | c :: t => if isSeparatorC c then skipSpacesT t else c :: t

theorem skipSpacesT_subset (s : List Char) : ∀ c ∈ skipSpacesT s, c ∈ s := by
  induction s with
  | nil => intro c hc; simp [skipSpacesT] at hc
  | cons a t ih =>
    intro c hc
    by_cases ha : isSeparatorC a
    · simp only [skipSpacesT, ha, if_pos] at hc
      exact List.mem_cons_of_mem a (ih c hc)
    · simp only [skipSpacesT, ha] at hc
      simpa using hc

theorem skipSpacesT_length_le (s : List Char) : (skipSpacesT s).length ≤ s.length := by
  induction s with
  | nil => simp [skipSpacesT]
  | cons a t ih =>
    by_cases ha : isSeparatorC a
    · simp only [skipSpacesT, ha, if_pos]
      exact ih.trans (Nat.le_succ _)
    · simp [skipSpacesT, ha]

/-- Loop body of `JSONReader::objectBegin`: accumulate `currentChar` into the
type name until an opening brace appears, then advance past it.  Reaching
end-of-stream first means the source loop appends `EOF` characters forever. -/
def objectBeginLoop : List Char → Option (List Char × List Char)
  | [] => none
  | c :: t =>
    if c = '\x7b' then some ([], t)
    else (objectBeginLoop t).map (fun r => (c :: r.1, r.2))

/-- Source `boost::trim`: strip leading and trailing whitespace. -/
def trimWs (s : List Char) : List Char :=
  ((s.dropWhile (fun c => isSeparatorC c)).reverse.dropWhile
    (fun c => isSeparatorC c)).reverse

/-- Source `JSONReader::objectBegin`: skip separators, scan the type name up to `{`,
consume the brace, trim the name. -/
def objectBeginR (s : List Char) : Option (List Char × List Char) :=
  (objectBeginLoop (skipSpacesT s)).map (fun r => (trimWs r.1, r.2))

/-- Source `JSONReader::objectEnd`: repeat `currentChar = get()` until `endObject()`
(`skipSpaces(); currentChar == '}'`) holds, then consume the brace.  If the
rest of the stream holds no closing brace the loop can never exit. -/
def objectEndR (s : List Char) : Option (List Char) :=
  match h : skipSpacesT s with
  | [] => none
  | c :: t => if c = '\x7d' then some t else objectEndR t
termination_by s.length
decreasing_by
  have hle := skipSpacesT_length_le s
  have h2 : skipSpacesT s = c :: t := h
  rw [h2] at hle
  simp at hle
  omega

/-- Source `JSONReader::collectionEnd`: identical scan with `]` in place of `}`
(`endCollection()` drives the loop). -/
def collectionEndR (s : List Char) : Option (List Char) :=
  match h : skipSpacesT s with
  | [] => none
  | c :: t => if c = ']' then some t else collectionEndR t
termination_by s.length
decreasing_by
  have hle := skipSpacesT_length_le s
  have h2 : skipSpacesT s = c :: t := h
  rw [h2] at hle
  simp at hle
  omega

/-- Loop of `JSONReader::getString` after the opening quote was consumed:
gather characters until an unescaped quote; a backslash copies itself and the
following character verbatim.  End-of-stream first: the source compares `EOF`
to `"` forever. -/
def stringLoop : List Char → Option (List Char × List Char)
  | [] => none
  | c :: t =>
    if c = '"' then some ([], t)
    else if c = '\\' then
      match t with
      | [] => none
      | c2 :: t2 => (stringLoop t2).map (fun r => (c :: c2 :: r.1, r.2))
    else (stringLoop t).map (fun r => (c :: r.1, r.2))

/-- Source `JSONReader::getString` (entered with `currentChar = '"'`): consume the
quote, gather the raw body, and strip escape sequences. -/
def getStringR : List Char → Option (List Char × List Char)
  | [] => none
  | _ :: t => (stringLoop t).map (fun r => (removeEscapeSeq r.1, r.2))

/-- Unquoted-token loop of `JSONReader::getToken`: gather characters while
they are not separators.  End-of-stream is never a separator, so the source
loop diverges there. -/
def tokenLoop : List Char → Option (List Char × List Char)
  | [] => none
  | c :: t =>
    if isSeparatorC c then some ([], c :: t)
    else (tokenLoop t).map (fun r => (c :: r.1, r.2))

/-- Source `JSONReader::getToken`: skip leading separators; a quote switches to
verbatim string mode, otherwise gather a maximal separator-free run. -/
def getTokenR (s : List Char) : Option (List Char × List Char) :=
  match skipSpacesT s with
  | [] => none
  | c :: t => if c = '"' then getStringR (c :: t) else tokenLoop (c :: t)

/-- Source `JSONReader::skipColon`: advance while `currentChar` is a colon (total:
`EOF` is not a colon). -/
def skipColonR : List Char → List Char
  | [] => []
  | c :: t => if c = ':' then skipColonR t else c :: t

/-- Heap of reconstructed instances for the read side: each instance identity
maps to the value of its pointer-valued property (`none` = not set). -/
def ReadHeap : Type := List (Nat × Option Nat)

/-- Pointer-valued property of an instance in the read-side heap. -/
def heapPtr : ReadHeap → Nat → Option (Option Nat)
  | [], _ => none
  | (k, v) :: t, n => if k = n then some v else heapPtr t n

/-- Source `JSONReader::readProperty( mt, instance )`: read the property-name token
and skip the colon.  A `$id` token consumes the id and stores nothing (the
source comment reads `todo: store ref`); a `$ref` token consumes the id and
returns `boost::any(0)` — "found reference" — without touching the instance or
the heap (the source comment reads `todo: find ref`); any other name
dispatches to the property's metatype (`Metatype::read`, declared in
metatype.hpp outside src/, here a parameter `normalProp`).  The result carries
the possibly-updated heap, the returned `boost::any` (`none` = empty), and the
rest of the stream. -/
def readPropertyR
    (normalProp : List Char → ReadHeap → Nat → List Char →
      Option (ReadHeap × Option Int × List Char))
    (heap : ReadHeap) (instance_ : Nat) (s : List Char) :
    Option (ReadHeap × Option Int × List Char) := do
  let (propName, s) ← getTokenR s
  let s := skipColonR s
  if propName = "$id".toList then do
    let (_ref, s) ← getTokenR s
    some (heap, none, s)
  else if propName = "$ref".toList then do
    let (_ref, s) ← getTokenR s
    some (heap, some 0, s)
  else
    normalProp propName heap instance_ s

/-! ### Collection adapter (`Metacollection`, collection.hpp) -/

/-- Modelled from the spec: `JSONParser` (jsonparser.hpp) is not under src/
(the `parser` variable in `Metacollection::_fromStr` has no declaration in the
provided sources).  Per §4.5, a collection read skips to `[`, then decodes one
element at a time until `]`; for primitive elements each parsed entry is one
token, tokens being maximal runs of non-separator characters.  This models the
parser's element sequence for a flat collection text. -/
def jsonParserElems (s : List Char) : List (List Char) :=
  let inner := ((s.dropWhile (fun c => c ≠ '[')).drop 1).takeWhile (fun c => c ≠ ']')
  (inner.splitOnP (fun c => isSeparatorC c)).filter (fun t => t ≠ [])

/-- Modelled from the spec: `MetaInt::_fromStr` (basetypes.hpp `strToNum`) is
not under src/; §4.5 reads numbers through one canonical locale-independent
formatter.  Decodes a decimal integer token. -/
def strToNumInt (s : List Char) : Int :=
  match s with
  | '-' :: t => - (t.foldl (fun acc c => acc * 10 + (c.toNat - 48)) 0 : Nat)
  | _ => (s.foldl (fun acc c => acc * 10 + (c.toNat - 48)) 0 : Nat)

/-- Source `Metacollection::_fromStr( instance, str )` for a collection of integers:
obtain the collection reference, then — with NO call to `clear()` anywhere in
the body (the source holds only the marker comment that a `clear` method must
exist) — decode each parser entry through the element metatype and
`insert( _collection.end(), ... )`, i.e. append, in arrival order. -/
def metacollectionFromStr (collection : List Int) (str : List Char) : List Int :=
  (jsonParserElems str).foldl (fun col es => col ++ [strToNumInt es]) collection

/-! ## Claims -/

/-- Heap for the C1 evaluation: instance `1` was reconstructed earlier
carrying serialization id "1" (its own pointer already set); instance `0` is
the instance currently being filled, its pointer-valued property still unset. -/
def refHeap : ReadHeap := [(0, none), (1, some 1)]

/-- C1: when `JSONReader::readProperty` consumes a `$ref` token it is claimed
to relink the target pointer property to the previously reconstructed instance
carrying that id.  Evaluating the embedded `readProperty` on the property text
`"$ref": "1"` for instance `0` shows the code merely consumes the id token and
returns `boost::any(0)`: the heap comes back identical, and instance `0`'s
pointer property is still unset (`some none`), not pointing at instance `1`.
This holds whatever the normal-property handler does, since that branch is
never taken.  (The source marks the branch `todo: find ref`.) -/
theorem readProperty_ref_leaves_instance_unlinked :
    ∀ normalProp : List Char → ReadHeap → Nat → List Char →
        Option (ReadHeap × Option Int × List Char),
      readPropertyR normalProp refHeap 0 ("\"$ref\": \"1\"").toList
          = some (refHeap, some 0, []) ∧
      heapPtr refHeap 0 = some none := by
  intro normalProp
  exact ⟨rfl, rfl⟩

/-- C2: deserialization of a collection is claimed to first clear the target
collection.  Evaluating the embedded `Metacollection::_fromStr` on a target
collection already holding `[9]` and the text `[1, 2]` yields `[9, 1, 2]`:
the prior contents survive (the body has no `clear()` call), so the result is
not the decoded element list `[1, 2]`. -/
theorem fromStr_keeps_prior_contents :
    metacollectionFromStr [9] ("[1, 2]").toList = [9, 1, 2] ∧
    metacollectionFromStr [9] ("[1, 2]").toList ≠ [1, 2] := by
  constructor
  · rfl
  · decide

/-- C5 counterexample: with nothing emitted between them, the begin/end
markers of a formatted empty object produce `TypeName {\n\n}` — `objectBegin`
ends its output with a newline and `objectEnd` emits another before the
closing brace — so the output is not the claimed `TypeName {\n}`. -/
theorem empty_object_not_single_newline :
    (objectEndW (objectBeginW ⟨"", false, false, 0⟩ "TypeName")).out
      ≠ "TypeName \x7b\n\x7d" := by
  decide

/-- C5 amended: for every type name and any initial values of the
uninitialized `need_nl`/`col_need_nl` members, a fresh writer (empty output,
indentation level 0) running `objectBegin` immediately followed by `objectEnd`
emits exactly the type name, a space, the opening brace, two newlines and the
closing brace: `TypeName {\n\n}`. -/
theorem empty_object_formatted_output (name : String) (nl cnl : Bool) :
    (objectEndW (objectBeginW ⟨"", nl, cnl, 0⟩ name)).out
      = name ++ " \x7b\n\n\x7d" := by
  show ((("" ++ name ++ " \x7b\n") ++ "\n") ++
      (List.replicate ((0 : Int) + 1 - 1).toNat '\t').asString) ++ "\x7d"
      = name ++ " \x7b\n\n\x7d"
  have h0 : ((0 : Int) + 1 - 1).toNat = 0 := rfl
  rw [h0]
  have h1 : (List.replicate 0 '\t').asString = "" := rfl
  rw [h1, String.append_empty]
  have h2 : ∀ t : String, "" ++ t = t := fun t => by
    apply String.ext
    simp [String.data_append]
  rw [h2, String.append_assoc, String.append_assoc]
  rfl

/-- C6: `TypedProperty::set` on a property whose `Writable` bit is clear skips
its entire body: no exception and the instance value is returned unchanged,
for every instance and every erased value (even one of the wrong dynamic
type).  A property built by the `Property()` constructor with only a non-empty
getter bound reports `isReadable() = true` and `isWritable() = false`. -/
theorem nonwritable_set_is_noop (p : PropertyState) (instance_ : Int)
    (value : AnyValue) (h : isWritable p = false) :
    propertySet p instance_ value = Except.ok instance_ ∧
    isReadable (bindGetter (propertyCtor "double") true) = true ∧
    isWritable (bindGetter (propertyCtor "double") true) = false := by
  refine ⟨?_, by decide, by decide⟩
  simp [propertySet, h]

/-- C6 witness: a mode-0 property with a value of mismatched dynamic type
still sets nothing and raises nothing. -/
theorem nonwritable_set_is_noop_witness :
    propertySet (propertyCtor "double") 5 ⟨"int", 7⟩ = Except.ok 5 ∧
    isReadable (bindGetter (propertyCtor "double") true) = true ∧
    isWritable (bindGetter (propertyCtor "double") true) = false :=
  nonwritable_set_is_noop (propertyCtor "double") 5 ⟨"int", 7⟩ (by decide)

/-- C7: `Reflector::metatype(name)` on a name with no registry entry throws
`Error("Metatype '<demangled name>' not declared")` synchronously; on a
registered name it returns exactly the registered metatype, with no error. -/
theorem lookup_unregistered_fails (s : RState) (name : String) :
    (mapFind s.meta_types name = none →
      metatypeLookup s name = Except.error
        ("Metatype '" ++ demangle s.prefixDecorators name ++ "' not declared")) ∧
    (∀ m, mapFind s.meta_types name = some m →
      metatypeLookup s name = Except.ok m) := by
  constructor
  · intro h
    rw [metatypeLookup, h]
  · intro m h
    rw [metatypeLookup, h]

/-- C7 witness: in a registry holding only `int`, looking up `Zed` fails with
the not-declared error and looking up `int` succeeds. -/
theorem lookup_unregistered_fails_witness :
    metatypeLookup ⟨[("int", 3)], 4, [], [], [], ["struct", "class"]⟩ "Zed"
        = Except.error "Metatype 'Zed' not declared" ∧
    metatypeLookup ⟨[("int", 3)], 4, [], [], [], ["struct", "class"]⟩ "int"
        = Except.ok 3 := by
  constructor
  · refine ((lookup_unregistered_fails
      ⟨[("int", 3)], 4, [], [], [], ["struct", "class"]⟩ "Zed").1
        (by decide)).trans (congrArg Except.error ?_)
    decide
  · exact (lookup_unregistered_fails
      ⟨[("int", 3)], 4, [], [], [], ["struct", "class"]⟩ "int").2 3 (by decide)

theorem hexDigitVal_hexDigitChar (k : Nat) (h : k < 16) :
    hexDigitVal (hexDigitChar k) = k := by
  interval_cases k <;> decide

/-- Decoding one escaper-produced escape sequence recovers the escaped byte
and leaves the remainder of the text to be decoded unchanged. -/
theorem removeEscapeSeq_escapeChar (c : Char) (h : c.toNat < 256) (t : List Char) :
    removeEscapeSeq (escapeChar c ++ t) = c :: removeEscapeSeq t := by
  by_cases h1 : c = '"'
  · subst h1; rfl
  by_cases h2 : c = '\\'
  · subst h2; rfl
  by_cases h3 : c = Char.ofNat 8
  · subst h3; rfl
  by_cases h4 : c = Char.ofNat 12
  · subst h4; rfl
  by_cases h5 : c = Char.ofNat 10
  · subst h5; rfl
  by_cases h6 : c = Char.ofNat 13
  · subst h6; rfl
  by_cases h7 : c = Char.ofNat 9
  · subst h7; rfl
  by_cases h8 : c.toNat < 32 ∨ 128 ≤ c.toNat
  · rw [escapeChar, if_neg h1, if_neg h2, if_neg h3, if_neg h4, if_neg h5,
      if_neg h6, if_neg h7, if_pos h8]
    have hstep : removeEscapeSeq ('\\' :: 'u' :: toHex4 c.toNat ++ t)
        = Char.ofNat (hex4 (hexDigitChar (c.toNat / 4096 % 16))
            (hexDigitChar (c.toNat / 256 % 16)) (hexDigitChar (c.toNat / 16 % 16))
            (hexDigitChar (c.toNat % 16)) % 256) :: removeEscapeSeq t := rfl
    rw [hstep]
    have hv : ((c.toNat / 4096 % 16 * 16 + c.toNat / 256 % 16) * 16
        + c.toNat / 16 % 16) * 16 + c.toNat % 16 = c.toNat := by omega
    rw [hex4, hexDigitVal_hexDigitChar _ (Nat.mod_lt _ (by norm_num)),
      hexDigitVal_hexDigitChar _ (Nat.mod_lt _ (by norm_num)),
      hexDigitVal_hexDigitChar _ (Nat.mod_lt _ (by norm_num)),
      hexDigitVal_hexDigitChar _ (Nat.mod_lt _ (by norm_num)), hv,
      Nat.mod_eq_of_lt h, Char.ofNat_toNat]
  · rw [escapeChar, if_neg h1, if_neg h2, if_neg h3, if_neg h4, if_neg h5,
      if_neg h6, if_neg h7, if_neg h8]
    show removeEscapeSeq (c :: t) = c :: removeEscapeSeq t
    simp only [removeEscapeSeq]
    rw [if_neg h2]

/-- C4: decoding with `JSONReader::removeEscapeSeq` inverts the writer-side
escaper on every byte string: for any string of bytes (code points below 256,
covering quotes, backslashes, control characters and non-ASCII bytes alike),
escaping and then unescaping returns the original string byte-identically. -/
theorem escape_unescape_roundtrip (s : List Char) (h : ∀ c ∈ s, c.toNat < 256) :
    removeEscapeSeq (addEscapeSeq s) = s := by
  induction s with
  | nil => rfl
  | cons c t ih =>
    rw [addEscapeSeq,
      removeEscapeSeq_escapeChar c (h c (List.mem_cons_self c t)),
      ih (fun x hx => h x (List.mem_cons_of_mem c hx))]

/-- C4 witness: the round trip on a concrete string holding a double quote, a
backslash, a newline and the non-ASCII byte 233. -/
theorem escape_unescape_roundtrip_witness :
    (∀ c ∈ ['"', '\\', Char.ofNat 10, Char.ofNat 233], c.toNat < 256) ∧
    removeEscapeSeq (addEscapeSeq ['"', '\\', Char.ofNat 10, Char.ofNat 233])
      = ['"', '\\', Char.ofNat 10, Char.ofNat 233] :=
  ⟨by decide, escape_unescape_roundtrip _ (by decide)⟩

theorem objectBeginLoop_none (s : List Char) (h : ∀ c ∈ s, c ≠ '\x7b') :
    objectBeginLoop s = none := by
  induction s with
  | nil => rfl
  | cons c t ih =>
    simp only [objectBeginLoop]
    rw [if_neg (h c (List.mem_cons_self c t)),
      ih (fun x hx => h x (List.mem_cons_of_mem c hx))]
    rfl

theorem objectEndR_of_no_brace :
    ∀ n (s : List Char), s.length ≤ n → (∀ c ∈ s, c ≠ '\x7d') →
      objectEndR s = none := by
  intro n
  induction n with
  | zero =>
    intro s hs _
    have hnil : s = [] := List.eq_nil_of_length_eq_zero (Nat.le_zero.mp hs)
    subst hnil
    simp [objectEndR, skipSpacesT]
  | succ n ih =>
    intro s hs hc
    rw [objectEndR.eq_def]
    split
    · rfl
    · rename_i c t hsk
      have hcs : c ∈ s :=
        skipSpacesT_subset s c (by rw [hsk]; exact List.mem_cons_self c t)
      rw [if_neg (hc c hcs)]
      apply ih
      · have hl := skipSpacesT_length_le s
        rw [hsk] at hl
        simp at hl
        omega
      · intro x hx
        exact hc x (skipSpacesT_subset s x (by rw [hsk]; exact List.mem_cons_of_mem c hx))

theorem collectionEndR_of_no_bracket :
    ∀ n (s : List Char), s.length ≤ n → (∀ c ∈ s, c ≠ ']') →
      collectionEndR s = none := by
  intro n
  induction n with
  | zero =>
    intro s hs _
    have hnil : s = [] := List.eq_nil_of_length_eq_zero (Nat.le_zero.mp hs)
    subst hnil
    simp [collectionEndR, skipSpacesT]
  | succ n ih =>
    intro s hs hc
    rw [collectionEndR.eq_def]
    split
    · rfl
    · rename_i c t hsk
      have hcs : c ∈ s :=
        skipSpacesT_subset s c (by rw [hsk]; exact List.mem_cons_self c t)
      rw [if_neg (hc c hcs)]
      apply ih
      · have hl := skipSpacesT_length_le s
        rw [hsk] at hl
        simp at hl
        omega
      · intro x hx
        exact hc x (skipSpacesT_subset s x (by rw [hsk]; exact List.mem_cons_of_mem c hx))

/-- C9: on an input whose closing delimiter never appears, the reader's scan
loops cannot finish.  For every stream without an opening brace, the
`objectBegin` type-name scan consumes the entire stream and never reaches its
exit condition (`none`; the source then appends `EOF` characters forever);
likewise the `objectEnd` loop on a stream with no closing brace and the
`collectionEnd` loop on a stream with no closing bracket. -/
theorem unterminated_scan_never_terminates (s : List Char) :
    ((∀ c ∈ s, c ≠ '\x7b') → objectBeginR s = none) ∧
    ((∀ c ∈ s, c ≠ '\x7d') → objectEndR s = none) ∧
    ((∀ c ∈ s, c ≠ ']') → collectionEndR s = none) := by
  refine ⟨?_, ?_, ?_⟩
  · intro h
    rw [objectBeginR,
      objectBeginLoop_none _ (fun x hx => h x (skipSpacesT_subset s x hx))]
    rfl
  · intro h
    exact objectEndR_of_no_brace s.length s le_rfl h
  · intro h
    exact collectionEndR_of_no_bracket s.length s le_rfl h

/-- C9 witness: a stream holding only a bare token has no `{`, `}` or `]`;
all three scan loops run off the end of it. -/
theorem unterminated_scan_never_terminates_witness :
    objectBeginR ("intMember 23").toList = none ∧
    objectEndR ("intMember 23").toList = none ∧
    collectionEndR ("intMember 23").toList = none :=
  ⟨(unterminated_scan_never_terminates ("intMember 23").toList).1 (by decide),
   (unterminated_scan_never_terminates ("intMember 23").toList).2.1 (by decide),
   (unterminated_scan_never_terminates ("intMember 23").toList).2.2 (by decide)⟩

@[simp] theorem updatePending_meta_types (s : RState) (n : String) (i : Nat) :
    (updatePendingProperties s n i).meta_types = s.meta_types := rfl

@[simp] theorem updatePending_nextId (s : RState) (n : String) (i : Nat) :
    (updatePendingProperties s n i).nextId = s.nextId := rfl

@[simp] theorem updatePending_decorators (s : RState) (n : String) (i : Nat) :
    (updatePendingProperties s n i).prefixDecorators = s.prefixDecorators := rfl

@[simp] theorem declareCore_meta_types (s : RState) (tname : String) (mc p : Nat) :
    (declareCore s tname mc p).meta_types
      = mapInsert (mapInsert s.meta_types tname mc) (ptrName tname) p := rfl

@[simp] theorem declareCore_nextId (s : RState) (tname : String) (mc p : Nat) :
    (declareCore s tname mc p).nextId = s.nextId := rfl

@[simp] theorem declareCore_decorators (s : RState) (tname : String) (mc p : Nat) :
    (declareCore s tname mc p).prefixDecorators = s.prefixDecorators := rfl

/-- After a successful `declare`, the declared name is bound in the registry
to the returned descriptor. -/
theorem declare_binds (s : RState) (T : String) (s1 : RState) (m : Nat)
    (h : declare s T = Except.ok (s1, m)) :
    mapFind s1.meta_types T = some m := by
  by_cases hf : (mapFind s.meta_types T).isSome
  · obtain ⟨v, hv⟩ := Option.isSome_iff_exists.mp hf
    rw [declare, if_pos hf, metatypeLookup, hv] at h
    simp only [Except.map, Except.ok.injEq, Prod.mk.injEq] at h
    obtain ⟨hs, hm⟩ := h
    rw [← hs, ← hm]
    exact hv
  · rw [declare, if_neg hf] at h
    have hnone : mapFind s.meta_types T = none := Option.not_isSome_iff_eq_none.mp hf
    simp only [internal_declare, hnone, if_pos] at h
    simp only [Except.map, Except.ok.injEq, Prod.mk.injEq] at h
    obtain ⟨hs, hm⟩ := h
    rw [← hs]
    simp only [declareCore_meta_types]
    rw [mapFind_mapInsert_ne _ _ _ _ (fun hh => ptrName_ne T hh.symm),
      mapFind_mapInsert_self]
    rw [hm]

/-- C3: `Reflector::declare<C>` is idempotent.  Whenever a first `declare`
produced registry state `s1` and descriptor `m`, running `declare` again for
the same type name returns exactly the same descriptor identity `m` and
leaves the registry state `s1` untouched — no new descriptor object, no new
map entry, no error. -/
theorem declare_idempotent (s : RState) (T : String) (s1 : RState) (m : Nat)
    (h : declare s T = Except.ok (s1, m)) :
    declare s1 T = Except.ok (s1, m) := by
  have hb : mapFind s1.meta_types T = some m := declare_binds s T s1 m h
  rw [declare, if_pos (by rw [hb]; rfl), metatypeLookup, hb]
  rfl

/-- C3 witness: declaring `Sample` in a fresh empty registry and then
declaring it again returns the identical descriptor and state. -/
theorem declare_idempotent_witness :
    declare ⟨[("Sample", 0), ("Sample*", 1)], 2, [], [], [(0, 1)], []⟩ "Sample"
      = Except.ok (⟨[("Sample", 0), ("Sample*", 1)], 2, [], [], [(0, 1)], []⟩, 0) :=
  declare_idempotent ⟨[], 0, [], [], [], []⟩ "Sample"
    ⟨[("Sample", 0), ("Sample*", 1)], 2, [], [], [(0, 1)], []⟩ 0 rfl

@[simp] theorem updatePending_pointerOf (s : RState) (n : String) (i : Nat) :
    (updatePendingProperties s n i).pointerOf = s.pointerOf := rfl

@[simp] theorem updatePending_propMeta (s : RState) (n : String) (i : Nat) :
    (updatePendingProperties s n i).propMeta
      = (s.pendingProps.filter (fun p => p.1 = n)).foldl
          (fun pm p => assocSet pm p.2 i) s.propMeta := rfl

@[simp] theorem updatePending_pendingProps (s : RState) (n : String) (i : Nat) :
    (updatePendingProperties s n i).pendingProps
      = s.pendingProps.filter (fun p => ¬ p.1 = n) := rfl

/-- Writing other properties' metatype fields does not disturb an unrelated
property's field. -/
theorem assocFind_foldl_set_ne (l : List (String × Nat)) (pm : List (Nat × Nat))
    (v k : Nat) (h : ∀ e ∈ l, e.2 ≠ k) :
    assocFind (l.foldl (fun pm p => assocSet pm p.2 v) pm) k = assocFind pm k := by
  induction l generalizing pm with
  | nil => rfl
  | cons e t ih =>
    rw [List.foldl_cons,
      ih (assocSet pm e.2 v) (fun x hx => h x (List.mem_cons_of_mem e hx)),
      assocFind_assocSet_ne pm e.2 k v
        (fun hh => h e (List.mem_cons_self e t) hh.symm)]

@[simp] theorem addPending_pendingProps (s : RState) (n : String) (i : Nat) :
    (addPendingProperty s n i).pendingProps = s.pendingProps ++ [(n, i)] := rfl

@[simp] theorem addPending_meta_types (s : RState) (n : String) (i : Nat) :
    (addPendingProperty s n i).meta_types = s.meta_types := rfl

@[simp] theorem addPending_nextId (s : RState) (n : String) (i : Nat) :
    (addPendingProperty s n i).nextId = s.nextId := rfl

@[simp] theorem addPending_propMeta (s : RState) (n : String) (i : Nat) :
    (addPendingProperty s n i).propMeta = s.propMeta := rfl

@[simp] theorem addPending_pointerOf (s : RState) (n : String) (i : Nat) :
    (addPendingProperty s n i).pointerOf = s.pointerOf := rfl

/-- The metatype field written by the trailing pending entry wins: flushing a
pending range whose last entry is the property `k` binds `k` to the new
descriptor. -/
theorem assocFind_foldl_append_last (l : List (String × Nat)) (pm : List (Nat × Nat))
    (v k : Nat) (n : String) :
    assocFind ((l ++ [(n, k)]).foldl (fun pm p => assocSet pm p.2 v) pm) k = some v := by
  rw [List.foldl_append]
  exact assocFind_assocSet_self _ _ _

/-- C8: a property enqueued with `addPendingProperty(T, prop)` while `T` is
undeclared is resolved by the next declaration of `T`: `declare` assigns the
newly created descriptor (identity `s.nextId`) to that property's metatype
field and removes the entry from the pending queue; a property enqueued under
the paired pointer name `T*` is at the same moment bound to the paired
pointer-metatype (identity `s.nextId + 1`, which is also recorded as the new
descriptor's pointer counterpart), and neither property is pending
afterwards. -/
theorem pending_property_resolved (s : RState) (T : String) (pid qid : Nat)
    (hT : mapFind s.meta_types T = none)
    (hp : ∀ e ∈ s.pendingProps, e.2 ≠ pid ∧ e.2 ≠ qid)
    (hpq : pid ≠ qid) :
    ∃ s2 : RState,
      declare (addPendingProperty (addPendingProperty s T pid) (ptrName T) qid) T
        = Except.ok (s2, s.nextId) ∧
      assocFind s2.propMeta pid = some s.nextId ∧
      assocFind s2.propMeta qid = some (s.nextId + 1) ∧
      assocFind s2.pointerOf s.nextId = some (s.nextId + 1) ∧
      (∀ e ∈ s2.pendingProps, e.2 ≠ pid ∧ e.2 ≠ qid) := by
  have hTp : ptrName T ≠ T := ptrName_ne T
  refine ⟨declareCore
      { s with pendingProps := (s.pendingProps ++ [(T, pid)]) ++ [(ptrName T, qid)],
               nextId := s.nextId + 1 + 1 }
      T s.nextId (s.nextId + 1), ?_, ?_, ?_, ?_, ?_⟩
  · rw [declare]
    rw [if_neg (by
      rw [show mapFind (addPendingProperty (addPendingProperty s T pid)
          (ptrName T) qid).meta_types T = none from hT]
      simp)]
    simp only [internal_declare]
    rw [if_pos (show mapFind (addPendingProperty (addPendingProperty s T pid)
        (ptrName T) qid).meta_types T = none from hT)]
    rfl
  · simp only [declareCore, updatePending_propMeta, updatePending_pendingProps,
      updatePending_pointerOf]
    simp [List.filter_append, hTp]
    rw [assocFind_assocSet_ne _ _ _ _ hpq,
      assocFind_foldl_set_ne _ _ _ _ (fun e he => (hp e (List.mem_of_mem_filter he)).1),
      assocFind_assocSet_self]
  · simp only [declareCore, updatePending_propMeta, updatePending_pendingProps,
      updatePending_pointerOf]
    simp [List.filter_append, hTp, assocFind_assocSet_self]
  · simp only [declareCore, updatePending_propMeta, updatePending_pendingProps,
      updatePending_pointerOf]
    simp [assocFind_assocSet_self]
  · simp only [declareCore, updatePending_propMeta, updatePending_pendingProps,
      updatePending_pointerOf]
    simp [List.filter_append, hTp]
    intro a b hmem _ _
    exact hp (a, b) hmem

/-- C8 witness: in an empty registry with allocation counter 5, enqueue
property 100 under `Point` and property 101 under `Point*`, then declare
`Point`. -/
theorem pending_property_resolved_witness :
    ∃ s2 : RState,
      declare (addPendingProperty (addPendingProperty ⟨[], 5, [], [], [], []⟩
          "Point" 100) (ptrName "Point") 101) "Point" = Except.ok (s2, 5) ∧
      assocFind s2.propMeta 100 = some 5 ∧
      assocFind s2.propMeta 101 = some (5 + 1) ∧
      assocFind s2.pointerOf 5 = some (5 + 1) ∧
      (∀ e ∈ s2.pendingProps, e.2 ≠ 100 ∧ e.2 ≠ 101) :=
  pending_property_resolved ⟨[], 5, [], [], [], []⟩ "Point" 100 101 rfl
    (by simp) (by decide)

theorem exceptBind_ok {A B : Type} (x : A) (f : A → Except String B) :
    (Except.ok x >>= f : Except String B) = f x := rfl

/-- One `register_defaults` line on a registry not yet holding the primitive:
the fresh path of `internal_declare` is taken. -/
theorem declarePrimitive_fields (s : RState) (T : String)
    (h : mapFind s.meta_types T = none) :
    declarePrimitive s T = Except.ok (declareCore
      { s with nextId := s.nextId + 1 + 1 } T s.nextId (s.nextId + 1)) := by
  simp only [declarePrimitive, internal_declare]
  rw [if_pos (show mapFind ({ s with nextId := s.nextId + 1 } : RState).meta_types T
      = none from h)]

theorem declarePrimitive_pack (u : RState) (T : String)
    (h : mapFind u.meta_types T = none) :
    ∃ x, declarePrimitive u T = Except.ok x ∧
      x.meta_types = mapInsert (mapInsert u.meta_types T u.nextId)
        (ptrName T) (u.nextId + 1) ∧
      x.prefixDecorators = u.prefixDecorators :=
  ⟨_, declarePrimitive_fields u T h, by simp, by simp⟩

/-- Inserting a fresh key appends it to the key sequence of the map. -/
theorem keys_mapInsert (m : List (String × Nat)) (k : String) (v : Nat)
    (h : k ∉ m.map Prod.fst) :
    (mapInsert m k v).map Prod.fst = m.map Prod.fst ++ [k] := by
  induction m with
  | nil => simp [mapInsert]
  | cons p t ih =>
    obtain ⟨k0, v0⟩ := p
    rw [List.map_cons] at h
    have h1 : ¬ k0 = k := fun hh => h (by rw [hh]; exact List.mem_cons_self _ _)
    have h2 : k ∉ t.map Prod.fst := fun hh => h (List.mem_cons_of_mem _ hh)
    simp [mapInsert, h1, ih h2]

/-- A name is absent from the registry map exactly when it is not among the
map's keys. -/
theorem mapFind_none_iff (m : List (String × Nat)) (k : String) :
    mapFind m k = none ↔ k ∉ m.map Prod.fst := by
  induction m with
  | nil => simp [mapFind]
  | cons p t ih =>
    obtain ⟨k0, v0⟩ := p
    by_cases h : k0 = k
    · simp [mapFind, h]
    · simp [mapFind, h, ih]
      exact fun _ hh => h hh.symm

/-- A registered key always resolves through `Reflector::metatype`. -/
theorem metatypeLookup_ok_of_key (s2 : RState) (n : String)
    (h : n ∈ s2.meta_types.map Prod.fst) :
    ∃ i, metatypeLookup s2 n = Except.ok i := by
  cases hf : mapFind s2.meta_types n with
  | none => exact absurd h ((mapFind_none_iff _ _).mp hf)
  | some v => exact ⟨v, by rw [metatypeLookup, hf]⟩

/-- Source `internal_declare` extends the key sequence by the declared name and its
pointer name. -/
theorem keys_after_declare (u x : RState) (T : String)
    (hm : x.meta_types = mapInsert (mapInsert u.meta_types T u.nextId)
      (ptrName T) (u.nextId + 1))
    (hfT : T ∉ u.meta_types.map Prod.fst)
    (hfTp : ptrName T ∉ u.meta_types.map Prod.fst) :
    x.meta_types.map Prod.fst = u.meta_types.map Prod.fst ++ [T, ptrName T] := by
  have houter : ptrName T ∉ (mapInsert u.meta_types T u.nextId).map Prod.fst := by
    rw [keys_mapInsert _ _ _ hfT]
    simp [hfTp, ptrName_ne T]
  rw [hm, keys_mapInsert _ _ _ houter, keys_mapInsert _ _ _ hfT,
    List.append_assoc]
  rfl

/-- C10: after every `Reflector::clear()` (and hence after construction, whose
body is a `clear()`), the registry again holds metatypes for the ten
primitive types `bool`, `char`, `short`, `int`, `long`, `float`, `double`,
`long double`, `wchar_t` and `std::string`, each with its paired
pointer-metatype entry, and the prefix decorator list is exactly
`["struct", "class"]` — so `metatype` lookup of any primitive (or primitive
pointer) name in a fresh or just-reset registry succeeds. -/
theorem clear_restores_defaults (s : RState) :
    ∃ s2 : RState, clear s = Except.ok s2 ∧
      (∀ n ∈ primitiveNames,
        (∃ i, metatypeLookup s2 n = Except.ok i) ∧
        (∃ j, metatypeLookup s2 (ptrName n) = Except.ok j)) ∧
      s2.prefixDecorators = ["struct", "class"] := by
  simp only [clear, register_defaults]
  obtain ⟨s1, e1, m1, d1⟩ := declarePrimitive_pack
    { s with meta_types := [], prefixDecorators := ["struct", "class"] } "bool"
    ((mapFind_none_iff _ _).mpr (by simp))
  rw [e1]
  simp only [exceptBind_ok]
  have K1 : s1.meta_types.map Prod.fst = ["bool", "bool*"] := by
    rw [keys_after_declare
      { s with meta_types := [], prefixDecorators := ["struct", "class"] }
      s1 "bool" m1 (by simp) (by simp)]
    rfl
  obtain ⟨s2, e2, m2, d2⟩ := declarePrimitive_pack s1 "char"
    ((mapFind_none_iff _ _).mpr (by rw [K1]; decide))
  rw [e2]
  simp only [exceptBind_ok]
  have K2 : s2.meta_types.map Prod.fst = ["bool", "bool*", "char", "char*"] := by
    rw [keys_after_declare s1 s2 "char" m2 (by rw [K1]; decide) (by rw [K1]; decide), K1]
    decide
  obtain ⟨s3, e3, m3, d3⟩ := declarePrimitive_pack s2 "short"
    ((mapFind_none_iff _ _).mpr (by rw [K2]; decide))
  rw [e3]
  simp only [exceptBind_ok]
  have K3 : s3.meta_types.map Prod.fst
      = ["bool", "bool*", "char", "char*", "short", "short*"] := by
    rw [keys_after_declare s2 s3 "short" m3 (by rw [K2]; decide) (by rw [K2]; decide), K2]
    decide
  obtain ⟨s4, e4, m4, d4⟩ := declarePrimitive_pack s3 "int"
    ((mapFind_none_iff _ _).mpr (by rw [K3]; decide))
  rw [e4]
  simp only [exceptBind_ok]
  have K4 : s4.meta_types.map Prod.fst
      = ["bool", "bool*", "char", "char*", "short", "short*", "int", "int*"] := by
    rw [keys_after_declare s3 s4 "int" m4 (by rw [K3]; decide) (by rw [K3]; decide), K3]
    decide
  obtain ⟨s5, e5, m5, d5⟩ := declarePrimitive_pack s4 "long"
    ((mapFind_none_iff _ _).mpr (by rw [K4]; decide))
  rw [e5]
  simp only [exceptBind_ok]
  have K5 : s5.meta_types.map Prod.fst
      = ["bool", "bool*", "char", "char*", "short", "short*", "int", "int*",
         "long", "long*"] := by
    rw [keys_after_declare s4 s5 "long" m5 (by rw [K4]; decide) (by rw [K4]; decide), K4]
    decide
  obtain ⟨s6, e6, m6, d6⟩ := declarePrimitive_pack s5 "float"
    ((mapFind_none_iff _ _).mpr (by rw [K5]; decide))
  rw [e6]
  simp only [exceptBind_ok]
  have K6 : s6.meta_types.map Prod.fst
      = ["bool", "bool*", "char", "char*", "short", "short*", "int", "int*",
         "long", "long*", "float", "float*"] := by
    rw [keys_after_declare s5 s6 "float" m6 (by rw [K5]; decide) (by rw [K5]; decide), K5]
    decide
  obtain ⟨s7, e7, m7, d7⟩ := declarePrimitive_pack s6 "double"
    ((mapFind_none_iff _ _).mpr (by rw [K6]; decide))
  rw [e7]
  simp only [exceptBind_ok]
  have K7 : s7.meta_types.map Prod.fst
      = ["bool", "bool*", "char", "char*", "short", "short*", "int", "int*",
         "long", "long*", "float", "float*", "double", "double*"] := by
    rw [keys_after_declare s6 s7 "double" m7 (by rw [K6]; decide) (by rw [K6]; decide), K6]
    decide
  obtain ⟨s8, e8, m8, d8⟩ := declarePrimitive_pack s7 "long double"
    ((mapFind_none_iff _ _).mpr (by rw [K7]; decide))
  rw [e8]
  simp only [exceptBind_ok]
  have K8 : s8.meta_types.map Prod.fst
      = ["bool", "bool*", "char", "char*", "short", "short*", "int", "int*",
         "long", "long*", "float", "float*", "double", "double*",
         "long double", "long double*"] := by
    rw [keys_after_declare s7 s8 "long double" m8 (by rw [K7]; decide)
      (by rw [K7]; decide), K7]
    decide
  obtain ⟨s9, e9, m9, d9⟩ := declarePrimitive_pack s8 "wchar_t"
    ((mapFind_none_iff _ _).mpr (by rw [K8]; decide))
  rw [e9]
  simp only [exceptBind_ok]
  have K9 : s9.meta_types.map Prod.fst
      = ["bool", "bool*", "char", "char*", "short", "short*", "int", "int*",
         "long", "long*", "float", "float*", "double", "double*",
         "long double", "long double*", "wchar_t", "wchar_t*"] := by
    rw [keys_after_declare s8 s9 "wchar_t" m9 (by rw [K8]; decide)
      (by rw [K8]; decide), K8]
    decide
  obtain ⟨s10, e10, m10, d10⟩ := declarePrimitive_pack s9 "std::string"
    ((mapFind_none_iff _ _).mpr (by rw [K9]; decide))
  rw [e10]
  have K10 : s10.meta_types.map Prod.fst
      = ["bool", "bool*", "char", "char*", "short", "short*", "int", "int*",
         "long", "long*", "float", "float*", "double", "double*",
         "long double", "long double*", "wchar_t", "wchar_t*",
         "std::string", "std::string*"] := by
    rw [keys_after_declare s9 s10 "std::string" m10 (by rw [K9]; decide)
      (by rw [K9]; decide), K9]
    decide
  refine ⟨s10, rfl, ?_, ?_⟩
  · intro n hn
    refine ⟨metatypeLookup_ok_of_key _ _ ?_, metatypeLookup_ok_of_key _ _ ?_⟩ <;>
      rw [K10] <;> fin_cases hn <;> decide
  · rw [d10, d9, d8, d7, d6, d5, d4, d3, d2, d1]

end Jrtti